import Mathlib

/-!
Shallow embedding of the NeoShare file server (`server.py`) request-routing
and content-delivery core, together with theorems settling the frozen claims
about its specification.

Python byte strings and text strings are both modelled as `List Char`
(`PyStr`), and each Python `str`/`bytes` operation used by the server is
embedded as an executable Lean function with the same semantics
(`pySplit` for `s.split(sep)`, `pySplitOnce` for `s.split(sep, 1)` access to
the first occurrence, `pyRSplitBefore` for `s.rsplit(sep, 1)[0]`, `pyIn` for
the `in` substring test, and so on).  Splitting functions that consume more
than one character per step are written with an explicit fuel argument equal
to the input length so that every definition is structurally recursive and
evaluates by kernel reduction.
-/

/-- Python strings and byte strings, modelled as lists of characters. -/
abbrev PyStr := List Char

/-- Conversion from a Lean string literal to the `PyStr` model. -/
def pys (s : String) : PyStr := s.toList

/-- Fuelled worker for Python `s.split(sep)` with a non-empty separator:
scans left to right, splitting at each non-overlapping occurrence of `sep`.
The fuel is an upper bound on the number of scanning steps; it is consumed
at least as fast as the input, so `fuel = s.length` never runs out. -/
def pySplitF (sep : PyStr) : Nat → PyStr → PyStr → List PyStr
  | _, [], acc => [acc.reverse]
  | 0, s, acc => [acc.reverse ++ s]
  | fuel + 1, c :: rest, acc =>
    if sep.isPrefixOf (c :: rest) then
      acc.reverse :: pySplitF sep fuel (List.drop (sep.length - 1) rest) []
    else
      pySplitF sep fuel rest (c :: acc)

/-- Python `s.split(sep)` for a non-empty separator (the server never calls
`split` with an empty separator, which raises in Python). -/
def pySplit (sep s : PyStr) : List PyStr :=
  match sep with
  | [] => [s]
  | _ :: _ => pySplitF sep s.length s []

/-- Worker for Python `s.split(sep, 1)`: returns the text before and after
the first occurrence of the non-empty separator `sep`, or `none` when `sep`
does not occur in `s`. -/
def pySplitOnceAux (sep : PyStr) : PyStr → Option (PyStr × PyStr)
  | [] => none
  | c :: rest =>
    if sep.isPrefixOf (c :: rest) then
      some ([], List.drop (sep.length - 1) rest)
    else
      match pySplitOnceAux sep rest with
      | none => none
      | some (pre, post) => some (c :: pre, post)

/-- Python `s.split(sep, 1)` exposed as the pair around the first occurrence
of `sep`; `none` means `sep` does not occur (so index `[1]` would raise). -/
def pySplitOnce (sep s : PyStr) : Option (PyStr × PyStr) :=
  match sep with
  | [] => some ([], s)
  | _ :: _ => pySplitOnceAux sep s

/-- Python substring test `sub in s`. -/
def pyIn (sub s : PyStr) : Bool :=
  match sub with
  | [] => true
  | _ :: _ => (pySplitOnce sub s).isSome

/-- Python `s.split(sep, 1)[0]`: the text before the first occurrence of
`sep`, or all of `s` when `sep` does not occur. -/
def pySplitHead (sep s : PyStr) : PyStr :=
  match pySplitOnce sep s with
  | none => s
  | some (pre, _) => pre

/-- Python `s.rsplit(sep, 1)[0]`: the text before the last occurrence of
`sep`, or all of `s` when `sep` does not occur.  The last occurrence of
`sep` in `s` corresponds to the first occurrence of `sep.reverse` in
`s.reverse`. -/
def pyRSplitBefore (sep s : PyStr) : PyStr :=
  match pySplitOnce sep.reverse s.reverse with
  | none => s
  | some (_, post) => post.reverse

/-- Python `s.replace(old, new)` (all occurrences), via
`new.join(s.split(old))`. -/
def pyReplace (old new s : PyStr) : PyStr :=
  List.intercalate new (pySplit old s)

/-- Python `s.startswith(p)`: read `pyStartsWith p s` as "`s` starts with
`p`". -/
def pyStartsWith (p s : PyStr) : Bool := p.isPrefixOf s

/-- Python `s.lstrip("/")`. -/
def pyLStripSlash (s : PyStr) : PyStr := s.dropWhile (fun c => c == '/')

/-- Python `s.rstrip("/")`. -/
def pyRStripSlash (s : PyStr) : PyStr :=
  (s.reverse.dropWhile (fun c => c == '/')).reverse

/-- Python `s.lower()` (ASCII case folding, which covers every name the
claims mention). -/
def pyLower (s : PyStr) : PyStr := s.map Char.toLower

/-- Python string comparison `a <= b`: lexicographic by code point. -/
def pyStrLe : PyStr → PyStr → Bool
  | [], _ => true
  | _ :: _, [] => false
  | a :: as, b :: bs =>
    if a.toNat < b.toNat then true
    else if b.toNat < a.toNat then false
    else pyStrLe as bs

/-- Value of a non-empty all-digit string, as used by Python `int`. -/
def pyDigitsVal (ds : PyStr) : Option Nat :=
  if !ds.isEmpty && ds.all Char.isDigit then
    some (ds.foldl (fun n c => n * 10 + (c.toNat - 48)) 0)
  else none

/-- Python `int(s)` for a string argument: surrounding whitespace allowed,
optional sign, then decimal digits; `none` models the `ValueError`. -/
def pyInt (s : PyStr) : Option Int :=
  match (s.dropWhile Char.isWhitespace).reverse.dropWhile Char.isWhitespace
      |>.reverse with
  | '+' :: ds => (pyDigitsVal ds).map Int.ofNat
  | '-' :: ds => (pyDigitsVal ds).map (fun n => -(n : Int))
  | ds => (pyDigitsVal ds).map Int.ofNat

/-- Python `os.path.basename(p)`: the text after the final path separator. -/
def pyBasename (p : PyStr) : PyStr := (pySplit (pys "/") p).getLastD p

/-- Python `os.path.join(a, b)` for the shapes the server produces: `b` wins
when absolute, otherwise a single separator is inserted unless `a` already
ends in one. -/
def osJoin (a b : PyStr) : PyStr :=
  if pyStartsWith (pys "/") b then b
  else if a = [] then b
  else if a.getLast? = some '/' then a ++ b
  else a ++ pys "/" ++ b

/-- One step of `os.path.normpath` component processing: empty and `"."`
components vanish, `".."` removes the previous component (and is dropped at
the root), anything else is appended. -/
def normStep (acc : List PyStr) (c : PyStr) : List PyStr :=
  if c = [] ∨ c = pys "." then acc
  else if c = pys ".." then acc.dropLast
  else acc ++ [c]

/-- Join normalized path components back into an absolute path. -/
def joinComps (cs : List PyStr) : PyStr :=
  pys "/" ++ List.intercalate (pys "/") cs

/-- Python `os.path.abspath(p)` on an argument that is already absolute:
pure `normpath` component normalization. -/
def absNormPath (p : PyStr) : PyStr :=
  joinComps ((pySplit (pys "/") p).foldl normStep [])

/-- `os.path.abspath(os.path.join(serve_root, rel))` as computed by both
`do_GET` and `do_POST` before their containment check. -/
def resolveTarget (serve_root rel : PyStr) : PyStr :=
  absNormPath (osJoin serve_root rel)

/-- Modelled from the spec (section 4.1), not from the source: the
boundary-aware root containment predicate the specification demands — the
resolved path must equal the serving root or extend it past a path
separator.  The source's own check is the bare `startswith` in
`resolveTarget`-consumers; this definition exists only to compare the two. -/
def specRootContained (root target : PyStr) : Bool :=
  target == root || pyStartsWith (root ++ pys "/") target

/-! ## Request router and handlers -/

/-- Filesystem facts `do_GET` queries: `os.path.isdir` and `os.path.isfile`
on resolved paths.  The filesystem is external state, read-only here. -/
structure GetFS where
  isDir : PyStr → Bool
  isFile : PyStr → Bool

/-- The behavior `do_GET` dispatches to, one constructor per terminal branch
of the handler. -/
inductive GetBehavior where
  | forbidden403
  | staticAsset (name : PyStr)
  | jsonListing (fsPath urlPath : PyStr)
  | archive (fsPath : PyStr)
  | fileDelivery (fsPath : PyStr)
  | dirUI (urlPath : PyStr)
  | notFound404
deriving DecidableEq, Repr

/-- `FileServer.do_GET` routing (server.py lines 20-55).  `urlPath` is
`urlparse(self.path).path` and `rel` is `unquote(urlPath.lstrip("/"))`
(percent-decoding is kept outside the model; every path the claims use is
percent-free, where `unquote` is the identity).  `qsJson` and `qsDownload`
are `qs.get("json")` and `qs.get("download")` from `parse_qs`. -/
def do_GET (fs : GetFS) (serve_root urlPath rel : PyStr)
    (qsJson qsDownload : Option (List PyStr)) : GetBehavior :=
  let target := resolveTarget serve_root rel
  if ¬ pyStartsWith serve_root target = true then .forbidden403
  else if rel = pys "index.html" ∨ rel = pys "styles.css" ∨ rel = pys "script.js" then
    .staticAsset rel
  else if qsJson = some [pys "1"] ∧ fs.isDir target = true then .jsonListing target urlPath
  else if qsDownload = some [pys "zip"] ∧ fs.isDir target = true then .archive target
  else if fs.isFile target = true then .fileDelivery target
  else if fs.isDir target = true then .dirUI urlPath
  else .notFound404

/-- Filesystem facts `do_POST` uses: `os.path.isdir` on the target and
whether `open(file_path, "wb")`/`write` succeeds at a path (its failure is
the per-part exception the handler catches and logs). -/
structure PostFS where
  isDir : PyStr → Bool
  writeOk : PyStr → Bool

/-- One stored upload: the basename recorded in `uploaded_files`, the
absolute path written, and the bytes written. -/
structure PartWrite where
  name : PyStr
  path : PyStr
  contents : PyStr
deriving DecidableEq, Repr

/-- The HTTP response `do_POST` produces: an error status or the 200 JSON
upload result carrying `uploaded_files` and `count`. -/
inductive PostResponse where
  | err (code : Nat) (msg : String)
  | uploadOk (files : List PyStr) (count : Nat)
deriving DecidableEq, Repr

/-- Status code of a `do_POST` response (the JSON result is sent with 200). -/
def PostResponse.code : PostResponse → Nat
  | .err c _ => c
  | .uploadOk _ _ => 200

/-- Response plus the file writes performed, in order. -/
structure PostOutcome where
  response : PostResponse
  writes : List PartWrite
deriving DecidableEq, Repr

/-- server.py line 16: 2 GB upload cap. -/
def MAX_UPLOAD_SIZE : Nat := 2 * 1024 * 1024 * 1024

/-- `self.rfile.read(length)`: at most `length` bytes of the request stream;
a negative argument reads to the end of the stream. -/
def pyRead (stream : PyStr) (length : Int) : PyStr :=
  if length < 0 then stream else stream.take length.toNat

/-- `int(self.headers.get("Content-Length", 0))` (server.py line 60): a
missing header defaults to the integer 0, a present header is parsed,
`none` modelling the `ValueError` branch. -/
def parsedLength (clHeader : Option PyStr) : Option Int :=
  match clHeader with
  | none => some 0
  | some s => pyInt s

/-- The filename extraction of server.py lines 102-105 applied to one
multipart part: split off the header block at the first blank line, then
take the text between `filename="` and the next quote.  `none` models every
`continue` the code reaches before a filename exists. -/
def extractFname (part : PyStr) : Option PyStr :=
  match pySplitOnce (pys "\r\n\r\n") part with
  | none => none
  | some (hdr, _) =>
    match pySplitOnce (pys "filename=\"") hdr with
    | none => none
    | some (_, rest) => some (pySplitHead (pys "\"") rest)

/-- Processing of one multipart part (server.py lines 96-122): skip parts
without a `Content-Disposition` header, without a header/body separator,
without a `filename="` attribute or with an empty filename; otherwise strip
the trailing CRLF from the body and write it to `target`/basename.  `none`
also models a caught per-part write failure. -/
def processPart (fs : PostFS) (target part : PyStr) : Option PartWrite :=
  if ¬ pyIn (pys "Content-Disposition") part = true then none
  else
    match pySplitOnce (pys "\r\n\r\n") part with
    | none => none
    | some (hdr, body) =>
      match pySplitOnce (pys "filename=\"") hdr with
      | none => none
      | some (_, rest) =>
        let fname := pySplitHead (pys "\"") rest
        if fname = [] then none
        else
          let safe := pyBasename fname
          let body2 := pyRSplitBefore (pys "\r\n") body
          let filePath := osJoin target safe
          if fs.writeOk filePath = true then some ⟨safe, filePath, body2⟩
          else none

/-- `FileServer.do_POST` (server.py lines 57-136): validate Content-Length,
enforce the size cap, resolve and contain the target, require an existing
directory and a multipart content type, extract the boundary (its absence
is the caught `IndexError`, answered 500), split the body on `--boundary`,
process each part independently, and always answer 200 with the ordered
stored names and their count. -/
def do_POST (fs : PostFS) (serve_root rel : PyStr) (clHeader : Option PyStr)
    (ctype stream : PyStr) : PostOutcome :=
  match parsedLength clHeader with
  | none => ⟨.err 400 "Invalid Content-Length", []⟩
  | some length =>
    if length > (MAX_UPLOAD_SIZE : Int) then ⟨.err 413 "Payload Too Large", []⟩
    else
      let target := resolveTarget serve_root rel
      if ¬ pyStartsWith serve_root target = true then ⟨.err 403 "Forbidden", []⟩
      else if ¬ fs.isDir target = true then
        ⟨.err 400 "Upload target is not a directory", []⟩
      else if ¬ pyIn (pys "multipart/form-data") ctype = true then
        ⟨.err 400 "Expected multipart/form-data", []⟩
      else
        match pySplitOnce (pys "boundary=") ctype with
        | none => ⟨.err 500 "Upload Read Error", []⟩
        | some (_, boundary) =>
          let data := pyRead stream length
          let parts := pySplit (pys "--" ++ boundary) data
          let stored := parts.filterMap (processPart fs target)
          ⟨.uploadOk (stored.map PartWrite.name) (stored.map PartWrite.name).length, stored⟩

/-! ## Content delivery: whole file and byte range -/

/-- Responses of `serve_file`/`serve_file_range`, one constructor per
terminal branch.  A 206 records the `Content-Range` fields
(`start`, `endPos`, `total`), the `Content-Length` value, and the body
bytes; a 200 records the `Content-Length` and the streamed chunks. -/
inductive FileResponse where
  | notFound404
  | forbidden403
  | internalError500
  | notSatisfiable416
  | wholeOk (contentLength : Nat) (chunks : List PyStr)
  | rangeOk (start endPos total contentLength : Int) (body : PyStr)
deriving DecidableEq, Repr

/-- Fuelled worker cutting a stream into successive blocks of at most `n`
bytes, as the `f.read(8192)` loop of `serve_file` does; fuel equal to the
stream length never runs out when `n ≥ 1`. -/
def chunksOfF (n : Nat) : Nat → PyStr → List PyStr
  | _, [] => []
  | 0, s => [s]
  | fuel + 1, c :: rest => (c :: rest).take n :: chunksOfF n fuel ((c :: rest).drop n)

/-- The successive chunks the whole-file read loop emits. -/
def chunksOf (n : Nat) (s : PyStr) : List PyStr := chunksOfF n s.length s

/-- Parsing of a `Range` header against a file size (server.py lines
209-211): strip every `bytes=`, split on `-`, index `[0]` and `[1]`
(fewer than two fields is the caught `IndexError`), an empty start
defaults to 0, an empty end to `file_size - 1`, and a non-integer field is
the caught `ValueError`; `none` covers both caught exceptions, answered
500. -/
def parseRange (header : PyStr) (fileSize : Int) : Option (Int × Int) :=
  match pySplit (pys "-") (pyReplace (pys "bytes=") [] header) with
  | m0 :: m1 :: _ =>
    match (if m0 = [] then some 0 else pyInt m0) with
    | none => none
    | some s =>
      match (if m1 = [] then some (fileSize - 1) else pyInt m1) with
      | none => none
      | some e => some (s, e)
  | _ => none

/-- `FileServer.serve_file_range` (server.py lines 206-244) over the file's
byte content: parse the header, reject out-of-bounds or inverted ranges
with 416 and no body, otherwise seek to `start` and stream exactly
`end - start + 1` bytes with a 206. -/
def serve_file_range (content header : PyStr) : FileResponse :=
  let fileSize : Int := (content.length : Int)
  match parseRange header fileSize with
  | none => .internalError500
  | some (s, e) =>
    if s ≥ fileSize ∨ e ≥ fileSize ∨ s > e then .notSatisfiable416
    else
      let contentLength := e - s + 1
      .rangeOk s e fileSize contentLength
        ((content.drop s.toNat).take contentLength.toNat)

/-- `FileServer.serve_file` (server.py lines 164-204): 404 when the path
does not exist, 403 when unreadable, delegate to the range handler when a
non-empty `Range` header is present (Python truthiness: an empty header
string counts as absent), otherwise a 200 with `Content-Length` equal to
the file size and the body streamed in 8192-byte reads. -/
def serve_file (onDisk readable : Bool) (content : PyStr)
    (rangeHeader : Option PyStr) : FileResponse :=
  if onDisk = false then .notFound404
  else if readable = false then .forbidden403
  else
    match rangeHeader with
    | some h =>
      if h ≠ [] then serve_file_range content h
      else .wholeOk content.length (chunksOf 8192 content)
    | none => .wholeOk content.length (chunksOf 8192 content)

/-! ## Directory listing -/

/-- One `os.listdir` entry together with the filesystem facts
`serve_json_dir` asks about it: whether `os.stat` succeeds, whether the
entry is a directory, and the `st_size` and `st_mtime` values a
successful `stat` reports. -/
structure DirEntryInfo where
  name : PyStr
  statOk : Bool
  dirFlag : Bool
  size : Nat
  mtime : Nat
deriving DecidableEq, Repr

/-- One JSON listing entry: `modified = none` encodes the empty-string
placeholder of the synthetic parent entry, `navPath` its extra `path`
key. -/
structure JsonEntry where
  name : PyStr
  is_dir : Bool
  size : Nat
  modified : Option Nat
  navPath : Option PyStr
deriving DecidableEq, Repr

/-- The comparison `sorted(..., key=str.lower)` sorts by: lowercased names
compared lexicographically. -/
def entryLe (a b : DirEntryInfo) : Prop :=
  pyStrLe (pyLower a.name) (pyLower b.name) = true

instance : DecidableRel entryLe := fun a b =>
  inferInstanceAs (Decidable (pyStrLe (pyLower a.name) (pyLower b.name) = true))

/-- The filter the listing loop applies: keep entries that are not hidden
(no leading dot) and whose `os.stat` succeeds. -/
def keepEntry (e : DirEntryInfo) : Bool :=
  !(pyStartsWith (pys ".") e.name) && e.statOk

/-- The JSON entry built for a kept directory entry (server.py lines
325-332). -/
def toJsonEntry (e : DirEntryInfo) : JsonEntry :=
  ⟨e.name, e.dirFlag, e.size, some e.mtime, none⟩

/-- Navigation target of the synthetic parent entry (server.py line 307):
`"/".join(url_path.rstrip("/").split("/")[:-1]) or "/"`. -/
def parentNavPath (urlPath : PyStr) : PyStr :=
  let joined := List.intercalate (pys "/")
    ((pySplit (pys "/") (pyRStripSlash urlPath)).dropLast)
  if joined = [] then pys "/" else joined

/-- The synthetic `..` entry prepended away from the root (server.py lines
306-316). -/
def parentEntry (urlPath : PyStr) : JsonEntry :=
  ⟨pys "..", true, 0, none, some (parentNavPath urlPath)⟩

/-- `FileServer.serve_json_dir` (server.py lines 300-347) producing the
ordered `entries` list: the optional parent entry, then the `os.listdir`
entries sorted by lowercased name (Python's stable sort embedded as
`List.insertionSort`, which computes the same result for this total
preorder), skipping hidden entries and entries whose `stat` raises. -/
def serve_json_dir (listing : List DirEntryInfo) (urlPath : PyStr) : List JsonEntry :=
  (if urlPath ≠ pys "/" then [parentEntry urlPath] else [])
  ++ (List.insertionSort entryLe listing).filterMap (fun e =>
      if pyStartsWith (pys ".") e.name = true then none
      else if e.statOk = true then some (toJsonEntry e) else none)

/-! ## Claim theorems -/

/-- Filesystem for the sibling-directory scenario: `/srv/share-other` is a
regular file outside the serving root `/srv/share`. -/
def siblingFS : GetFS :=
  ⟨fun _ => false, fun p => p == pys "/srv/share-other"⟩

/-- Claim C1 (code bug): with serving root `/srv/share`, the client path
`../share-other` resolves to `/srv/share-other`, which the boundary-aware
containment predicate of the specification rejects — it is neither the
root nor inside it — yet the server's bare `startswith` check accepts it
and `do_GET` dispatches to file delivery for the sibling path instead of
answering 403. -/
theorem C1_sibling_prefix_escape :
    resolveTarget (pys "/srv/share") (pys "../share-other") = pys "/srv/share-other"
    ∧ specRootContained (pys "/srv/share") (pys "/srv/share-other") = false
    ∧ pyStartsWith (pys "/srv/share")
        (resolveTarget (pys "/srv/share") (pys "../share-other")) = true
    ∧ do_GET siblingFS (pys "/srv/share") (pys "/../share-other")
        (pys "../share-other") none none
        = .fileDelivery (pys "/srv/share-other") := by
  refine ⟨by decide, by decide, by decide, by decide⟩

/-- Claim C8: for a GET surviving the traversal check, the router picks
exactly one behavior by the fixed precedence order, first match winning:
static asset name, then directory with `json=1`, then directory with
`download=zip`, then regular file, then directory UI, otherwise 404. -/
theorem C8_router_precedence (fs : GetFS) (serve_root urlPath rel : PyStr)
    (qsJson qsDownload : Option (List PyStr))
    (htrav : pyStartsWith serve_root (resolveTarget serve_root rel) = true) :
    (rel = pys "index.html" ∨ rel = pys "styles.css" ∨ rel = pys "script.js" →
      do_GET fs serve_root urlPath rel qsJson qsDownload = .staticAsset rel)
    ∧ (¬ (rel = pys "index.html" ∨ rel = pys "styles.css" ∨ rel = pys "script.js") →
        qsJson = some [pys "1"] →
        fs.isDir (resolveTarget serve_root rel) = true →
        do_GET fs serve_root urlPath rel qsJson qsDownload
          = .jsonListing (resolveTarget serve_root rel) urlPath)
    ∧ (¬ (rel = pys "index.html" ∨ rel = pys "styles.css" ∨ rel = pys "script.js") →
        ¬ (qsJson = some [pys "1"] ∧ fs.isDir (resolveTarget serve_root rel) = true) →
        qsDownload = some [pys "zip"] →
        fs.isDir (resolveTarget serve_root rel) = true →
        do_GET fs serve_root urlPath rel qsJson qsDownload
          = .archive (resolveTarget serve_root rel))
    ∧ (¬ (rel = pys "index.html" ∨ rel = pys "styles.css" ∨ rel = pys "script.js") →
        ¬ (qsJson = some [pys "1"] ∧ fs.isDir (resolveTarget serve_root rel) = true) →
        ¬ (qsDownload = some [pys "zip"] ∧ fs.isDir (resolveTarget serve_root rel) = true) →
        fs.isFile (resolveTarget serve_root rel) = true →
        do_GET fs serve_root urlPath rel qsJson qsDownload
          = .fileDelivery (resolveTarget serve_root rel))
    ∧ (¬ (rel = pys "index.html" ∨ rel = pys "styles.css" ∨ rel = pys "script.js") →
        ¬ (qsJson = some [pys "1"] ∧ fs.isDir (resolveTarget serve_root rel) = true) →
        ¬ (qsDownload = some [pys "zip"] ∧ fs.isDir (resolveTarget serve_root rel) = true) →
        fs.isFile (resolveTarget serve_root rel) = false →
        fs.isDir (resolveTarget serve_root rel) = true →
        do_GET fs serve_root urlPath rel qsJson qsDownload = .dirUI urlPath)
    ∧ (¬ (rel = pys "index.html" ∨ rel = pys "styles.css" ∨ rel = pys "script.js") →
        fs.isFile (resolveTarget serve_root rel) = false →
        fs.isDir (resolveTarget serve_root rel) = false →
        do_GET fs serve_root urlPath rel qsJson qsDownload = .notFound404) := by
  simp only [do_GET]
  rw [if_neg (not_not_intro htrav)]
  refine ⟨?_, ?_, ?_, ?_, ?_, ?_⟩
  · intro hs
    rw [if_pos hs]
  · intro hs hj hd
    rw [if_neg hs, if_pos ⟨hj, hd⟩]
  · intro hs hnj hz hd
    rw [if_neg hs, if_neg hnj, if_pos ⟨hz, hd⟩]
  · intro hs hnj hnz hf
    rw [if_neg hs, if_neg hnj, if_neg hnz, if_pos hf]
  · intro hs hnj hnz hf hd
    rw [if_neg hs, if_neg hnj, if_neg hnz, if_neg (by simp [hf]), if_pos hd]
  · intro hs hf hd
    rw [if_neg hs, if_neg (by simp [hd]), if_neg (by simp [hd]), if_neg (by simp [hf]),
      if_neg (by simp [hd])]

/-- Witness for C8 at concrete inputs: root `/srv/share`, path `docs`,
query `json=1`, a filesystem where the resolved target is a directory; the
router selects the JSON listing. -/
theorem C8_router_precedence_witness :
    do_GET ⟨fun p => p == pys "/srv/share/docs", fun _ => false⟩
      (pys "/srv/share") (pys "/docs") (pys "docs") (some [pys "1"]) none
      = .jsonListing (pys "/srv/share/docs") (pys "/docs") := by
  have h := (C8_router_precedence ⟨fun p => p == pys "/srv/share/docs", fun _ => false⟩
    (pys "/srv/share") (pys "/docs") (pys "docs") (some [pys "1"]) none
    (by decide)).2.1 (by decide) rfl (by decide)
  exact h.trans (by decide)

/-- Elements produced by splitting on a single-character separator never
contain that separator. -/
theorem not_mem_of_mem_pySplitF_single (c : Char) :
    ∀ (fuel : Nat) (s acc : PyStr), s.length ≤ fuel → c ∉ acc →
      ∀ x ∈ pySplitF [c] fuel s acc, c ∉ x := by
  intro fuel
  induction fuel with
  | zero =>
    intro s acc hlen hacc x hx
    cases s with
    | nil =>
      simp only [pySplitF, List.mem_singleton] at hx
      subst hx
      simpa using hacc
    | cons a t => simp at hlen
  | succ n ih =>
    intro s acc hlen hacc x hx
    cases s with
    | nil =>
      simp only [pySplitF, List.mem_singleton] at hx
      subst hx
      simpa using hacc
    | cons a t =>
      simp only [pySplitF] at hx
      by_cases hpre : [c].isPrefixOf (a :: t) = true
      · rw [if_pos hpre] at hx
        rcases List.mem_cons.mp hx with h | h
        · subst h
          simpa using hacc
        · exact ih (List.drop 0 t) [] (by simp at hlen ⊢; omega) (by simp) x h
      · rw [if_neg hpre] at hx
        have hne : a ≠ c := by
          intro h
          subst h
          simp [List.isPrefixOf] at hpre
        have hacc2 : c ∉ a :: acc := by
          intro hmem
          rcases List.mem_cons.mp hmem with h | h
          · exact hne h.symm
          · exact hacc h
        exact ih t (a :: acc) (by simp at hlen ⊢; omega) hacc2 x hx

/-- Specialization to `pySplit`. -/
theorem not_mem_of_mem_pySplit_single {c : Char} {s x : PyStr}
    (hx : x ∈ pySplit [c] s) : c ∉ x :=
  not_mem_of_mem_pySplitF_single c s.length s [] (Nat.le_refl _) (by simp) x hx

/-- `pyInt` on a string without a minus sign never returns a negative
value. -/
theorem pyInt_nonneg {s : PyStr} {v : Int} (hdash : ('-') ∉ s)
    (h : pyInt s = some v) : 0 ≤ v := by
  unfold pyInt at h
  split at h
  · rcases Option.map_eq_some'.mp h with ⟨n, _, rfl⟩
    exact Int.ofNat_nonneg n
  · rename_i ds heq
    exfalso
    apply hdash
    have hmem : ('-') ∈ ((List.dropWhile Char.isWhitespace
        (List.dropWhile Char.isWhitespace s).reverse).reverse : PyStr) := by
      rw [heq]; simp
    have h1 := (List.mem_reverse).mp hmem
    have h2 := List.Sublist.mem h1 (List.dropWhile_sublist Char.isWhitespace)
    have h3 := (List.mem_reverse).mp h2
    exact List.Sublist.mem h3 (List.dropWhile_sublist Char.isWhitespace)
  · rcases Option.map_eq_some'.mp h with ⟨n, _, rfl⟩
    exact Int.ofNat_nonneg n

/-- The start position handed back by `parseRange` is never negative: an
omitted start defaults to 0, and an explicit start is a field of the split
on `-`, hence free of minus signs. -/
theorem parseRange_start_nonneg {header : PyStr} {fileSize s e : Int}
    (h : parseRange header fileSize = some (s, e)) : 0 ≤ s := by
  unfold parseRange at h
  split at h
  · rename_i m0 m1 rest heq
    split at h
    · exact absurd h (by simp)
    · rename_i sv hsv
      split at hsv
      · cases hsv
        split at h
        · exact absurd h (by simp)
        · rename_i ev hev
          cases h
          exact le_refl 0
      · split at h
        · exact absurd h (by simp)
        · rename_i ev hev
          cases h
          have hm0 : m0 ∈ pySplit [('-')] (pyReplace (pys "bytes=") [] header) := by
            have : pys "-" = [('-')] := rfl
            rw [this] at heq
            rw [heq]
            exact List.mem_cons_self _ _
          exact pyInt_nonneg (not_mem_of_mem_pySplit_single hm0) hsv
  · exact absurd h (by simp)

/-- Claim C3: for a file of `N` bytes and a parsed single range `(s, e)`
(missing start defaulting to 0, missing end to `N - 1`), the handler
answers 416 with no body when `s ≥ N`, `e ≥ N` or `s > e`, and otherwise a
206 whose `Content-Range` fields are `s`, `e`, `N`, whose `Content-Length`
is `e - s + 1`, and whose body is exactly the `e - s + 1` bytes of the
file starting at offset `s`. -/
theorem C3_range_request_semantics (content header : PyStr) (s e : Int)
    (hparse : parseRange header (content.length : Int) = some (s, e)) :
    ((s ≥ (content.length : Int) ∨ e ≥ (content.length : Int) ∨ s > e) →
      serve_file_range content header = .notSatisfiable416)
    ∧ (¬ (s ≥ (content.length : Int) ∨ e ≥ (content.length : Int) ∨ s > e) →
      serve_file_range content header
        = .rangeOk s e (content.length : Int) (e - s + 1)
            ((content.drop s.toNat).take (e - s + 1).toNat)
      ∧ ((content.drop s.toNat).take (e - s + 1).toNat).length = (e - s + 1).toNat
      ∧ ∀ i : Nat, i < (e - s + 1).toNat →
          ((content.drop s.toNat).take (e - s + 1).toNat)[i]? = content[s.toNat + i]?) := by
  have hs0 : 0 ≤ s := parseRange_start_nonneg hparse
  constructor
  · intro hbad
    simp only [serve_file_range]
    rw [hparse]
    simp only [if_pos hbad]
  · intro hgood
    push_neg at hgood
    obtain ⟨h1, h2, h3⟩ := hgood
    refine ⟨?_, ?_, ?_⟩
    · simp only [serve_file_range]
      rw [hparse]
      exact if_neg (by push_neg; exact ⟨h1, h2, h3⟩)
    · rw [List.length_take, List.length_drop]
      omega
    · intro i hi
      rw [List.getElem?_take, if_pos hi, List.getElem?_drop]

/-- Witness for C3: `Range: bytes=0-0` against a one-byte file parses to
`(0, 0)`, and the handler answers 206 with `Content-Range: bytes 0-0/1`,
`Content-Length` 1, and exactly the file's first byte as body. -/
theorem C3_range_request_semantics_witness :
    serve_file_range [('x')] (pys "bytes=0-0") = .rangeOk 0 0 1 1 [('x')] := by
  have h := (C3_range_request_semantics [('x')] (pys "bytes=0-0") 0 0
    (by decide)).2 (by decide)
  exact h.1.trans (by decide)

/-- Claim C9: a file GET whose `Range` header splits into fields where the
start or end field is present (non-empty) but not an integer is answered
500, not 416: the `int` failure lands in the generic exception handler of
`serve_file_range` instead of the 416 branch. -/
theorem C9_malformed_range_is_500 (content header m0 m1 : PyStr)
    (rest : List PyStr)
    (hsplit : pySplit (pys "-") (pyReplace (pys "bytes=") [] header)
      = m0 :: m1 :: rest)
    (hbad : (m0 ≠ [] ∧ pyInt m0 = none) ∨ (m1 ≠ [] ∧ pyInt m1 = none)) :
    serve_file (true) (true) content (some header) = .internalError500
    ∧ serve_file (true) (true) content (some header) ≠ .notSatisfiable416 := by
  have hne : header ≠ [] := by
    intro h
    rw [h] at hsplit
    have hempty : pySplit (pys "-") (pyReplace (pys "bytes=") [] ([] : PyStr))
        = [([] : PyStr)] := rfl
    rw [hempty] at hsplit
    simp at hsplit
  have hparse : parseRange header (content.length : Int) = none := by
    unfold parseRange
    rw [hsplit]
    change (match (if m0 = [] then some (0 : Int) else pyInt m0) with
      | none => none
      | some s =>
        match (if m1 = [] then some ((content.length : Int) - 1) else pyInt m1) with
        | none => none
        | some e => some (s, e)) = none
    rcases hbad with ⟨hne0, hint0⟩ | ⟨hne1, hint1⟩
    · rw [if_neg hne0, hint0]
    · rcases h0 : (if m0 = [] then some (0 : Int) else pyInt m0) with _ | sv
      · rfl
      · change (match (if m1 = [] then some ((content.length : Int) - 1)
            else pyInt m1) with
          | none => none
          | some e => some (sv, e)) = none
        rw [if_neg hne1, hint1]
  have hserve : serve_file_range content header = .internalError500 := by
    simp only [serve_file_range]
    rw [hparse]
  have : serve_file (true) (true) content (some header) = serve_file_range content header := by
    simp only [serve_file]
    rw [if_neg (by simp), if_neg (by simp), if_pos hne]
  rw [this, hserve]
  exact ⟨rfl, by intro h; cases h⟩

/-- Witness for C9: `Range: bytes=abc-` on a one-byte file splits into the
non-integer start field `abc`, and the response is the 500 branch. -/
theorem C9_malformed_range_is_500_witness :
    serve_file (true) (true) [('x')] (some (pys "bytes=abc-")) = .internalError500 := by
  exact (C9_malformed_range_is_500 [('x')] (pys "bytes=abc-") (pys "abc") []
    [] (by decide) (Or.inl ⟨by decide, by decide⟩)).1

/-- Concatenating the chunks of the read loop reproduces the stream
exactly, as long as the fuel covers the stream and the block size is
positive. -/
theorem chunksOfF_flatten (n : Nat) (hn : 0 < n) :
    ∀ (fuel : Nat) (s : PyStr), s.length ≤ fuel →
      (chunksOfF n fuel s).flatten = s := by
  intro fuel
  induction fuel with
  | zero =>
    intro s hlen
    cases s with
    | nil => rfl
    | cons a t => simp at hlen
  | succ k ih =>
    intro s hlen
    cases s with
    | nil => rfl
    | cons a t =>
      simp only [chunksOfF, List.flatten_cons]
      rw [ih ((a :: t).drop n) (by simp at hlen ⊢; omega)]
      exact List.take_append_drop n (a :: t)

/-- Every chunk the read loop emits has at most `n` bytes, as long as the
fuel covers the stream. -/
theorem chunksOfF_length_le (n : Nat) (hn : 0 < n) :
    ∀ (fuel : Nat) (s : PyStr), s.length ≤ fuel →
      ∀ c ∈ chunksOfF n fuel s, c.length ≤ n := by
  intro fuel
  induction fuel with
  | zero =>
    intro s hlen c hc
    cases s with
    | nil => simp [chunksOfF] at hc
    | cons a t => simp at hlen
  | succ k ih =>
    intro s hlen c hc
    cases s with
    | nil => simp [chunksOfF] at hc
    | cons a t =>
      simp only [chunksOfF, List.mem_cons] at hc
      rcases hc with rfl | hc
      · simp
      · exact ih _ (by simp at hlen ⊢; omega) c hc

/-- Claim C7: a successful whole-file GET (existing, readable, no `Range`
header) answers 200 with `Content-Length` equal to the file size, streams
the file in blocks of at most 8192 bytes, and the concatenation of the
streamed blocks is exactly the file — so the bytes written equal the
declared length (the file being unmodified during the response is built
into modelling its content as a single immutable value). -/
theorem C7_whole_file_delivery (content : PyStr) :
    serve_file (true) (true) content none
      = .wholeOk content.length (chunksOf 8192 content)
    ∧ (chunksOf 8192 content).flatten = content
    ∧ ((chunksOf 8192 content).flatten).length = content.length
    ∧ ∀ c ∈ chunksOf 8192 content, c.length ≤ 8192 := by
  have hflat : (chunksOf 8192 content).flatten = content :=
    chunksOfF_flatten 8192 (by omega) content.length content (Nat.le_refl _)
  refine ⟨rfl, hflat, by rw [hflat], ?_⟩
  exact chunksOfF_length_le 8192 (by omega) content.length content (Nat.le_refl _)

/-- Shared characterization of `do_POST` on the upload path: once the
length, size, containment, directory, and content-type checks pass and a
boundary is present, the outcome is the 200 upload result built from the
parts of the body split on `--boundary`, each processed independently. -/
theorem do_POST_upload_eq (fs : PostFS) (serve_root rel : PyStr)
    (clHeader : Option PyStr) (ctype stream : PyStr) (len : Int)
    (bnd : PyStr × PyStr)
    (hlen : parsedLength clHeader = some len)
    (hmax : ¬ len > (MAX_UPLOAD_SIZE : Int))
    (htrav : pyStartsWith serve_root (resolveTarget serve_root rel) = true)
    (hdir : fs.isDir (resolveTarget serve_root rel) = true)
    (hmp : pyIn (pys "multipart/form-data") ctype = true)
    (hbnd : pySplitOnce (pys "boundary=") ctype = some bnd) :
    do_POST fs serve_root rel clHeader ctype stream
      = ⟨.uploadOk
            (((pySplit (pys "--" ++ bnd.2) (pyRead stream len)).filterMap
                (processPart fs (resolveTarget serve_root rel))).map PartWrite.name)
            ((((pySplit (pys "--" ++ bnd.2) (pyRead stream len)).filterMap
                (processPart fs (resolveTarget serve_root rel))).map PartWrite.name).length),
          (pySplit (pys "--" ++ bnd.2) (pyRead stream len)).filterMap
            (processPart fs (resolveTarget serve_root rel))⟩ := by
  obtain ⟨b1, b2⟩ := bnd
  simp only [do_POST]
  split
  · rename_i heq
    rw [heq] at hlen
    cases hlen
  · rename_i length heq
    rw [heq] at hlen
    injection hlen with hlen
    subst hlen
    rw [if_neg hmax, if_neg (not_not_intro htrav), if_neg (not_not_intro hdir),
      if_neg (not_not_intro hmp)]
    split
    · rename_i heq2
      rw [heq2] at hbnd
      cases hbnd
    · rename_i fst boundary heq2
      rw [heq2] at hbnd
      injection hbnd with hbnd
      cases hbnd
      rfl

/-- Claim C6: a multipart body that passes the router's size, target, and
content-type checks is always answered 200 with a JSON result whose
`uploaded_files` is the ordered list of stored basenames and whose `count`
is its length (even when empty), and part processing is compositional —
splitting the part list anywhere splits the stored list accordingly, and
a part whose processing fails contributes nothing while the rest are still
processed. -/
theorem C6_upload_always_200_and_resilient (fs : PostFS) (serve_root rel : PyStr)
    (clHeader : Option PyStr) (ctype stream : PyStr) (len : Int)
    (bnd : PyStr × PyStr)
    (hlen : parsedLength clHeader = some len)
    (hmax : ¬ len > (MAX_UPLOAD_SIZE : Int))
    (htrav : pyStartsWith serve_root (resolveTarget serve_root rel) = true)
    (hdir : fs.isDir (resolveTarget serve_root rel) = true)
    (hmp : pyIn (pys "multipart/form-data") ctype = true)
    (hbnd : pySplitOnce (pys "boundary=") ctype = some bnd) :
    ((do_POST fs serve_root rel clHeader ctype stream).response
        = .uploadOk ((do_POST fs serve_root rel clHeader ctype stream).writes.map PartWrite.name)
            ((do_POST fs serve_root rel clHeader ctype stream).writes.map PartWrite.name).length
      ∧ (do_POST fs serve_root rel clHeader ctype stream).response.code = 200
      ∧ (do_POST fs serve_root rel clHeader ctype stream).writes
          = (pySplit (pys "--" ++ bnd.2) (pyRead stream len)).filterMap
              (processPart fs (resolveTarget serve_root rel)))
    ∧ (∀ parts1 parts2 : List PyStr,
        (parts1 ++ parts2).filterMap (processPart fs (resolveTarget serve_root rel))
          = parts1.filterMap (processPart fs (resolveTarget serve_root rel))
            ++ parts2.filterMap (processPart fs (resolveTarget serve_root rel)))
    ∧ (∀ (p : PyStr) (parts : List PyStr),
        processPart fs (resolveTarget serve_root rel) p = none →
        (p :: parts).filterMap (processPart fs (resolveTarget serve_root rel))
          = parts.filterMap (processPart fs (resolveTarget serve_root rel))) := by
  have heq := do_POST_upload_eq fs serve_root rel clHeader ctype stream len bnd
    hlen hmax htrav hdir hmp hbnd
  refine ⟨⟨?_, ?_, ?_⟩, ?_, ?_⟩
  · rw [heq]
  · rw [heq]
    rfl
  · rw [heq]
  · intro parts1 parts2
    exact List.filterMap_append _ _ _
  · intro p parts hfail
    simp [List.filterMap_cons, hfail]

set_option maxRecDepth 10000 in
/-- Witness for C6 at concrete inputs: a three-part body whose middle part
is malformed (its header block has no terminating blank line, the caught
`ValueError`); the two good parts are still stored in order and the
response is the 200 result with `count = 2`. -/
theorem C6_upload_always_200_and_resilient_witness :
    do_POST ⟨fun p => p == pys "/srv/share/up", fun _ => true⟩
      (pys "/srv/share") (pys "up") (some (pys "204"))
      (pys "multipart/form-data; boundary=B")
      (pys "--B\r\nContent-Disposition: form-data; name=\"f\"; filename=\"a.txt\"\r\n\r\nAAA\r\n--B\r\nContent-Disposition: broken filename=\"bad.txt\"\r\n--B\r\nContent-Disposition: form-data; name=\"g\"; filename=\"c.txt\"\r\n\r\nCCC\r\n--B--\r\n")
      = ⟨.uploadOk [pys "a.txt", pys "c.txt"] 2,
          [⟨pys "a.txt", pys "/srv/share/up/a.txt", pys "AAA"⟩,
           ⟨pys "c.txt", pys "/srv/share/up/c.txt", pys "CCC"⟩]⟩
    ∧ (do_POST ⟨fun p => p == pys "/srv/share/up", fun _ => true⟩
        (pys "/srv/share") (pys "up") (some (pys "204"))
        (pys "multipart/form-data; boundary=B")
        (pys "--B\r\nContent-Disposition: form-data; name=\"f\"; filename=\"a.txt\"\r\n\r\nAAA\r\n--B\r\nContent-Disposition: broken filename=\"bad.txt\"\r\n--B\r\nContent-Disposition: form-data; name=\"g\"; filename=\"c.txt\"\r\n\r\nCCC\r\n--B--\r\n")).response.code
        = 200 := by
  have h := do_POST_upload_eq ⟨fun p => p == pys "/srv/share/up", fun _ => true⟩
    (pys "/srv/share") (pys "up") (some (pys "204"))
    (pys "multipart/form-data; boundary=B")
    (pys "--B\r\nContent-Disposition: form-data; name=\"f\"; filename=\"a.txt\"\r\n\r\nAAA\r\n--B\r\nContent-Disposition: broken filename=\"bad.txt\"\r\n--B\r\nContent-Disposition: form-data; name=\"g\"; filename=\"c.txt\"\r\n\r\nCCC\r\n--B--\r\n")
    204 (pys "multipart/form-data; ", pys "B")
    (by decide) (by decide) (by decide) (by decide) (by decide) (by decide)
  have h2 := (C6_upload_always_200_and_resilient
    ⟨fun p => p == pys "/srv/share/up", fun _ => true⟩
    (pys "/srv/share") (pys "up") (some (pys "204"))
    (pys "multipart/form-data; boundary=B")
    (pys "--B\r\nContent-Disposition: form-data; name=\"f\"; filename=\"a.txt\"\r\n\r\nAAA\r\n--B\r\nContent-Disposition: broken filename=\"bad.txt\"\r\n--B\r\nContent-Disposition: form-data; name=\"g\"; filename=\"c.txt\"\r\n\r\nCCC\r\n--B--\r\n")
    204 (pys "multipart/form-data; ", pys "B")
    (by decide) (by decide) (by decide) (by decide) (by decide) (by decide)).1.2.1
  exact ⟨h.trans (by decide), h2⟩

/-- Claim C10: a POST without a `Content-Length` header is not rejected;
the declared length defaults to 0, so when the target is an existing
directory and the content type declares multipart with a boundary, the
handler reads an empty body, finds no parts to store, and answers 200
with an empty `uploaded_files` and `count = 0`, writing nothing. -/
theorem C10_missing_content_length_defaults_zero (fs : PostFS)
    (serve_root rel ctype stream : PyStr) (bnd : PyStr × PyStr)
    (htrav : pyStartsWith serve_root (resolveTarget serve_root rel) = true)
    (hdir : fs.isDir (resolveTarget serve_root rel) = true)
    (hmp : pyIn (pys "multipart/form-data") ctype = true)
    (hbnd : pySplitOnce (pys "boundary=") ctype = some bnd) :
    do_POST fs serve_root rel none ctype stream = ⟨.uploadOk [] 0, []⟩ := by
  have heq := do_POST_upload_eq fs serve_root rel none ctype stream 0 bnd
    rfl (by decide) htrav hdir hmp hbnd
  rw [heq]
  have hparts : pySplit (pys "--" ++ bnd.2) (pyRead stream 0) = [[]] := by
    have hread : pyRead stream 0 = [] := by
      simp [pyRead]
    rw [hread]
    rcases h : pys "--" ++ bnd.2 with _ | ⟨c, t⟩
    · exact absurd h (by simp [pys])
    · rfl
  rw [hparts]
  have : processPart fs (resolveTarget serve_root rel) [] = none := rfl
  simp [List.filterMap_cons, this]

/-- Witness for C10: concrete root, directory target, and multipart
content type with boundary; the outcome is the empty 200 result. -/
theorem C10_missing_content_length_defaults_zero_witness :
    do_POST ⟨fun p => p == pys "/srv/share/up", fun _ => true⟩
      (pys "/srv/share") (pys "up") none
      (pys "multipart/form-data; boundary=B") (pys "ignored stream bytes")
      = ⟨.uploadOk [] 0, []⟩ :=
  C10_missing_content_length_defaults_zero
    ⟨fun p => p == pys "/srv/share/up", fun _ => true⟩
    (pys "/srv/share") (pys "up")
    (pys "multipart/form-data; boundary=B") (pys "ignored stream bytes")
    (pys "multipart/form-data; ", pys "B")
    (by decide) (by decide) (by decide) (by decide)

/-- Counterexample to claim C2 as stated: a POST to an existing directory
whose `Content-Type` is exactly `multipart/form-data` — declaring
multipart but lacking any boundary parameter — is answered 500
(`Upload Read Error`, the caught `IndexError` of the boundary split), not
the claimed 400; no file is stored. -/
theorem C2_missing_boundary_counterexample :
    (do_POST ⟨fun p => p == pys "/srv/share/up", fun _ => true⟩
        (pys "/srv/share") (pys "up") (some (pys "0"))
        (pys "multipart/form-data") (pys "")).response
      = .err 500 "Upload Read Error"
    ∧ (do_POST ⟨fun p => p == pys "/srv/share/up", fun _ => true⟩
        (pys "/srv/share") (pys "up") (some (pys "0"))
        (pys "multipart/form-data") (pys "")).response.code ≠ 400
    ∧ (do_POST ⟨fun p => p == pys "/srv/share/up", fun _ => true⟩
        (pys "/srv/share") (pys "up") (some (pys "0"))
        (pys "multipart/form-data") (pys "")).writes = [] := by
  refine ⟨by decide, by decide, by decide⟩

/-- Claim C2 as amended: a POST reaching the content-type check (valid
length, within the cap, contained target, existing directory) is answered
400 with no file stored when the `Content-Type` does not contain
`multipart/form-data`; when it does contain it but has no `boundary=`
parameter the answer is 500 (`Upload Read Error`), again with no file
stored — not the 400 the original claim asserts. -/
theorem C2_content_type_gate (fs : PostFS) (serve_root rel : PyStr)
    (clHeader : Option PyStr) (ctype stream : PyStr) (len : Int)
    (hlen : parsedLength clHeader = some len)
    (hmax : ¬ len > (MAX_UPLOAD_SIZE : Int))
    (htrav : pyStartsWith serve_root (resolveTarget serve_root rel) = true)
    (hdir : fs.isDir (resolveTarget serve_root rel) = true) :
    (pyIn (pys "multipart/form-data") ctype = false →
      do_POST fs serve_root rel clHeader ctype stream
        = ⟨.err 400 "Expected multipart/form-data", []⟩)
    ∧ (pyIn (pys "multipart/form-data") ctype = true →
      pyIn (pys "boundary=") ctype = false →
      do_POST fs serve_root rel clHeader ctype stream
        = ⟨.err 500 "Upload Read Error", []⟩) := by
  constructor
  · intro hmp
    simp only [do_POST]
    split
    · rename_i heq
      rw [heq] at hlen
      cases hlen
    · rename_i length heq
      rw [heq] at hlen
      injection hlen with hlen
      subst hlen
      rw [if_neg hmax, if_neg (not_not_intro htrav), if_neg (not_not_intro hdir),
        if_pos (by rw [hmp]; exact Bool.false_ne_true)]
  · intro hmp hnb
    have hbnd : pySplitOnce (pys "boundary=") ctype = none := by
      have hred : pyIn (pys "boundary=") ctype
          = (pySplitOnce (pys "boundary=") ctype).isSome := rfl
      rw [hred] at hnb
      exact Option.not_isSome_iff_eq_none.mp (by rw [hnb]; exact Bool.false_ne_true)
    simp only [do_POST]
    split
    · rename_i heq
      rw [heq] at hlen
      cases hlen
    · rename_i length heq
      rw [heq] at hlen
      injection hlen with hlen
      subst hlen
      rw [if_neg hmax, if_neg (not_not_intro htrav), if_neg (not_not_intro hdir),
        if_neg (not_not_intro hmp), hbnd]

/-- Witness for the amended C2 at concrete inputs: `text/plain` is
answered 400, and `multipart/form-data` without a boundary is answered
500, no file stored in either case. -/
theorem C2_content_type_gate_witness :
    do_POST ⟨fun p => p == pys "/srv/share/up", fun _ => true⟩
      (pys "/srv/share") (pys "up") (some (pys "0")) (pys "text/plain") (pys "")
      = ⟨.err 400 "Expected multipart/form-data", []⟩
    ∧ do_POST ⟨fun p => p == pys "/srv/share/up", fun _ => true⟩
      (pys "/srv/share") (pys "up") (some (pys "0")) (pys "multipart/form-data") (pys "")
      = ⟨.err 500 "Upload Read Error", []⟩ :=
  ⟨(C2_content_type_gate ⟨fun p => p == pys "/srv/share/up", fun _ => true⟩
      (pys "/srv/share") (pys "up") (some (pys "0")) (pys "text/plain") (pys "")
      0 (by decide) (by decide) (by decide) (by decide)).1 (by decide),
   (C2_content_type_gate ⟨fun p => p == pys "/srv/share/up", fun _ => true⟩
      (pys "/srv/share") (pys "up") (some (pys "0")) (pys "multipart/form-data") (pys "")
      0 (by decide) (by decide) (by decide) (by decide)).2 (by decide) (by decide)⟩

/-- Splitting never produces an empty list of fields. -/
theorem pySplitF_ne_nil (sep : PyStr) :
    ∀ (fuel : Nat) (s acc : PyStr), pySplitF sep fuel s acc ≠ [] := by
  intro fuel
  induction fuel with
  | zero =>
    intro s acc
    cases s <;> simp [pySplitF]
  | succ k ih =>
    intro s acc
    cases s with
    | nil => simp [pySplitF]
    | cons a t =>
      simp only [pySplitF]
      by_cases hpre : sep.isPrefixOf (a :: t) = true
      · rw [if_pos hpre]
        simp
      · rw [if_neg hpre]
        exact ih t (a :: acc)

/-- `getLastD` of a non-empty list is a member. -/
theorem getLastD_mem_of_ne_nil {α : Type} {l : List α} {d : α} (h : l ≠ []) :
    l.getLastD d ∈ l := by
  cases l with
  | nil => exact absurd rfl h
  | cons a t =>
    rw [List.getLastD_cons]
    exact List.getLastD_mem_cons t a

/-- The basename of any client-supplied filename contains no path
separator. -/
theorem pyBasename_no_slash (f : PyStr) : ('/') ∉ pyBasename f := by
  have hsep : pys "/" = [('/')] := rfl
  unfold pyBasename
  rw [hsep]
  apply not_mem_of_mem_pySplit_single
  apply getLastD_mem_of_ne_nil
  unfold pySplit
  exact pySplitF_ne_nil _ _ _ _

/-- The single-character substring test agrees with list membership: a
character missing from the string is never found. -/
theorem pySplitOnceAux_single_none {c : Char} :
    ∀ {s : PyStr}, c ∉ s → pySplitOnceAux [c] s = none := by
  intro s
  induction s with
  | nil => intro _; rfl
  | cons a t ih =>
    intro h
    have hne : ¬ (c = a) := fun hc => h (hc ▸ List.mem_cons_self a t)
    have hmem : c ∉ t := fun hc => h (List.mem_cons_of_mem a hc)
    simp only [pySplitOnceAux]
    rw [if_neg (by simp [List.isPrefixOf, hne])]
    rw [ih hmem]

/-- `pyIn` for a single character is false when the character does not
occur. -/
theorem pyIn_single_false {c : Char} {s : PyStr} (h : c ∉ s) :
    pyIn [c] s = false := by
  simp only [pyIn, pySplitOnce]
  rw [pySplitOnceAux_single_none h]
  rfl

set_option maxRecDepth 10000 in
/-- Claim C5: whenever a multipart part is stored, the stored name is
exactly the base component of the client-supplied filename (so it contains
no path separator) and the write lands directly inside the target
directory at `target`/basename; moreover, uploading the two filenames
`evil/../../etc/passwd` and `notes.txt` stores exactly the files `passwd`
and `notes.txt` inside the target directory with `count = 2`. -/
theorem C5_upload_basename_only (fs : PostFS) (target part : PyStr)
    (w : PartWrite) (h : processPart fs target part = some w) :
    (∃ fname, extractFname part = some fname ∧ fname ≠ []
      ∧ w.name = pyBasename fname)
    ∧ pyIn (pys "/") w.name = false
    ∧ w.path = osJoin target w.name
    ∧ do_POST ⟨fun p => p == pys "/srv/share/up", fun _ => true⟩
        (pys "/srv/share") (pys "up") (some (pys "176"))
        (pys "multipart/form-data; boundary=B")
        (pys "--B\r\nContent-Disposition: form-data; name=\"f\"; filename=\"evil/../../etc/passwd\"\r\n\r\nSECRET\r\n--B\r\nContent-Disposition: form-data; name=\"g\"; filename=\"notes.txt\"\r\n\r\nhello\r\n--B--\r\n")
        = ⟨.uploadOk [pys "passwd", pys "notes.txt"] 2,
            [⟨pys "passwd", pys "/srv/share/up/passwd", pys "SECRET"⟩,
             ⟨pys "notes.txt", pys "/srv/share/up/notes.txt", pys "hello"⟩]⟩ := by
  have hmain : (∃ fname, extractFname part = some fname ∧ fname ≠ []
      ∧ w.name = pyBasename fname)
      ∧ pyIn (pys "/") w.name = false
      ∧ w.path = osJoin target w.name := by
    unfold processPart at h
    split at h
    · cases h
    · split at h
      · cases h
      · rename_i hdr body heq1
        split at h
        · cases h
        · rename_i pre rest heq2
          dsimp only at h
          split at h
          · cases h
          · rename_i hfne
            split at h
            · rename_i hwrite
              injection h with h
              subst h
              refine ⟨⟨pySplitHead (pys "\"") rest, ?_, hfne, rfl⟩, ?_, rfl⟩
              · unfold extractFname
                rw [heq1]
                dsimp only
                rw [heq2]
              · have hsep : pys "/" = [('/')] := rfl
                rw [hsep]
                exact pyIn_single_false (pyBasename_no_slash _)
            · cases h
  refine ⟨hmain.1, hmain.2.1, hmain.2.2, ?_⟩
  have heq := do_POST_upload_eq ⟨fun p => p == pys "/srv/share/up", fun _ => true⟩
    (pys "/srv/share") (pys "up") (some (pys "176"))
    (pys "multipart/form-data; boundary=B")
    (pys "--B\r\nContent-Disposition: form-data; name=\"f\"; filename=\"evil/../../etc/passwd\"\r\n\r\nSECRET\r\n--B\r\nContent-Disposition: form-data; name=\"g\"; filename=\"notes.txt\"\r\n\r\nhello\r\n--B--\r\n")
    176 (pys "multipart/form-data; ", pys "B")
    (by decide) (by decide) (by decide) (by decide) (by decide) (by decide)
  exact heq.trans (by decide)

set_option maxRecDepth 10000 in
/-- Witness for C5 at a concrete part: the filename
`evil/../../etc/passwd` is reduced to the stored name `passwd`, which
contains no separator, and the write path sits directly in the target
directory. -/
theorem C5_upload_basename_only_witness :
    pyIn (pys "/")
      (PartWrite.mk (pys "passwd") (pys "/srv/share/up/passwd") (pys "SECRET")).name
      = false := by
  exact (C5_upload_basename_only ⟨fun _ => true, fun _ => true⟩
    (pys "/srv/share/up")
    (pys "\r\nContent-Disposition: form-data; name=\"f\"; filename=\"evil/../../etc/passwd\"\r\n\r\nSECRET\r\n")
    ⟨pys "passwd", pys "/srv/share/up/passwd", pys "SECRET"⟩
    (by decide)).2.1

/-- Python string comparison is total. -/
theorem pyStrLe_total : ∀ (a b : PyStr), pyStrLe a b = true ∨ pyStrLe b a = true := by
  intro a
  induction a with
  | nil => intro b; left; rfl
  | cons x xs ih =>
    intro b
    cases b with
    | nil => right; rfl
    | cons y ys =>
      by_cases h1 : x.toNat < y.toNat
      · left; simp [pyStrLe, h1]
      · by_cases h2 : y.toNat < x.toNat
        · right; simp [pyStrLe, h2]
        · rcases ih ys with h | h
          · left; simp [pyStrLe, h1, h2, h]
          · right; simp [pyStrLe, h1, h2, h]

/-- Python string comparison is transitive. -/
theorem pyStrLe_trans : ∀ (a b c : PyStr), pyStrLe a b = true →
    pyStrLe b c = true → pyStrLe a c = true := by
  intro a
  induction a with
  | nil => intro b c _ _; rfl
  | cons x xs ih =>
    intro b c hab hbc
    cases b with
    | nil => simp [pyStrLe] at hab
    | cons y ys =>
      cases c with
      | nil => simp [pyStrLe] at hbc
      | cons z zs =>
        by_cases hxy : x.toNat < y.toNat
        · by_cases hyz : y.toNat < z.toNat
          · have hxz : x.toNat < z.toNat := Nat.lt_trans hxy hyz
            simp [pyStrLe, hxz]
          · by_cases hzy : z.toNat < y.toNat
            · simp [pyStrLe, hyz, hzy] at hbc
            · have hxz : x.toNat < z.toNat := by omega
              simp [pyStrLe, hxz]
        · by_cases hyx : y.toNat < x.toNat
          · simp [pyStrLe, hxy, hyx] at hab
          · by_cases hyz : y.toNat < z.toNat
            · have hxz : x.toNat < z.toNat := by omega
              simp [pyStrLe, hxz]
            · by_cases hzy : z.toNat < y.toNat
              · simp [pyStrLe, hyz, hzy] at hbc
              · have hxz : ¬ x.toNat < z.toNat := by omega
                have hzx : ¬ z.toNat < x.toNat := by omega
                simp [pyStrLe, hxy, hyx] at hab
                simp [pyStrLe, hyz, hzy] at hbc
                simp [pyStrLe, hxz, hzx]
                exact ih ys zs hab hbc

instance : IsTotal DirEntryInfo entryLe :=
  ⟨fun _ _ => pyStrLe_total _ _⟩

instance : IsTrans DirEntryInfo entryLe :=
  ⟨fun _ _ _ => pyStrLe_trans _ _ _⟩

/-- A guarded `filterMap` is a `filter` followed by a `map`. -/
theorem filterMap_guard_eq {α β : Type} (p : α → Bool) (f : α → β) :
    ∀ l : List α,
      l.filterMap (fun a => if p a = true then some (f a) else none)
        = (l.filter p).map f := by
  intro l
  induction l with
  | nil => rfl
  | cons a t ih =>
    by_cases h : p a = true <;>
      simp [List.filterMap_cons, List.filter_cons, h, ih]

/-- The listing loop body is the `keepEntry` guard. -/
theorem listing_loop_eq_guard :
    (fun (e : DirEntryInfo) =>
        if pyStartsWith (pys ".") e.name = true then none
        else if e.statOk = true then some (toJsonEntry e) else none)
      = fun e => if keepEntry e = true then some (toJsonEntry e) else none := by
  funext e
  by_cases h1 : pyStartsWith (pys ".") e.name = true
  · simp [h1, keepEntry]
  · by_cases h2 : e.statOk = true <;>
      simp [h1, h2, keepEntry, Bool.eq_false_iff.mpr h1]

/-- Claim C4: the JSON listing is the readable non-hidden entries in
case-insensitive name order, with hidden entries and entries whose `stat`
fails excluded, prefixed — exactly when the URL path is not `/` — by a
synthetic `..` entry whose navigation path is the URL path with its last
segment removed (`/` when that is empty); in particular the directory
`b.txt`, `A.txt`, `.secret` listed at `/docs` yields the names
`[.., A.txt, b.txt]`. -/
theorem C4_json_listing_order (listing : List DirEntryInfo) (urlPath : PyStr) :
    (serve_json_dir listing urlPath
      = (if urlPath = pys "/" then [] else [parentEntry urlPath])
        ++ ((List.insertionSort entryLe listing).filter keepEntry).map toJsonEntry)
    ∧ (((List.insertionSort entryLe listing).filter keepEntry).map toJsonEntry).Pairwise
        (fun a b => pyStrLe (pyLower a.name) (pyLower b.name) = true)
    ∧ List.Perm (((List.insertionSort entryLe listing).filter keepEntry).map toJsonEntry)
        ((listing.filter keepEntry).map toJsonEntry)
    ∧ (∀ j ∈ ((List.insertionSort entryLe listing).filter keepEntry).map toJsonEntry,
        pyStartsWith (pys ".") j.name = false)
    ∧ (parentEntry urlPath).navPath = some (parentNavPath urlPath)
    ∧ (serve_json_dir
        [⟨pys "b.txt", true, false, 3, 7⟩, ⟨pys "A.txt", true, false, 3, 7⟩,
         ⟨pys ".secret", true, false, 3, 7⟩] (pys "/docs")).map JsonEntry.name
        = [pys "..", pys "A.txt", pys "b.txt"] := by
  refine ⟨?_, ?_, ?_, ?_, rfl, by decide⟩
  · simp only [serve_json_dir, listing_loop_eq_guard, filterMap_guard_eq]
    by_cases h : urlPath = pys "/"
    · simp [h]
    · simp [h]
  · have hsorted : (List.insertionSort entryLe listing).Pairwise entryLe :=
      List.sorted_insertionSort entryLe listing
    have hfiltered := hsorted.filter keepEntry
    rw [List.pairwise_map]
    exact hfiltered.imp (fun h => h)
  · exact ((List.perm_insertionSort entryLe listing).filter keepEntry).map toJsonEntry
  · intro j hj
    rcases List.mem_map.mp hj with ⟨e, he, rfl⟩
    have hk : keepEntry e = true := List.of_mem_filter he
    unfold keepEntry at hk
    have := (Bool.and_eq_true _ _).mp hk
    rcases this with ⟨hnot, -⟩
    simpa using hnot
